import Mathlib

/-!
Shallow embedding of the ModSim traffic cellular automaton
(`src/ca.py`, `src/rules.py`).

Grids are `lanes × lane_len` integer matrices: `-1` marks an empty cell,
a value `v ≥ 0` a car with velocity `v`.  The rule classes of
`rules.py` become functions on grids; numpy in-place mutation becomes
explicit state passing, numpy fancy indexing becomes `List.set`, and
fallible operations (out-of-range numpy writes, asserts, missing
attributes) return `Except`.  The only parts not taken verbatim from the
source are the draws of numpy's Mersenne-Twister generator, which are
modelled by an explicit deterministic function of the seed (see
`prngNat`); every theorem that depends on random draws depends only on
their determinism and shape, never on particular values.
-/

abbrev Lane := List Int
abbrev Grid := List Lane

/-- Value of cell `j` of a lane (`-1` when out of range). -/
def laneGet (lane : Lane) (j : Nat) : Int := lane.getD j (-1)

/-- Value of cell `(i, j)` of a grid. -/
def gridGet (g : Grid) (i j : Nat) : Int := laneGet (g.getD i []) j

/-- In-place write `state[i, j] = v` of the source, as a functional update. -/
def gridSet (g : Grid) (i j : Nat) (v : Int) : Grid :=
  g.set i ((g.getD i []).set j v)

/-- All cells of a grid, row major. -/
def gridCells (g : Grid) : List Int := g.flatten

/-- Number of occupied cells, `(state >= 0).sum()` of the source. -/
def occCount (g : Grid) : Nat := (gridCells g).countP (fun c => decide (0 ≤ c))

/-- Sum of the values of the occupied cells. -/
def occSum (g : Grid) : Int := ((gridCells g).filter (fun c => decide (0 ≤ c))).sum

/-! ## Rules (`src/rules.py`) -/

/-- `Accelerate.apply`: every occupied cell below `v_max` gains one. -/
def Accelerate.apply (v_max : Int) (state : Grid) : Grid :=
  state.map (fun lane => lane.map (fun c => if c < v_max ∧ 0 ≤ c then c + 1 else c))

/-- `BreakOrTakeOver.check_following_vehicles`: occupancy flags of the next
`speed` cells (toroidally) after `index`; `np.roll(lane, -(index+1))[:speed] >= 0`. -/
def BreakOrTakeOver.check_following_vehicles (lane : Lane) (index : Nat) (speed : Nat) :
    List Bool :=
  (List.range (min speed lane.length)).map
    (fun k => decide (0 ≤ laneGet lane ((index + 1 + k) % lane.length)))

/-- `BreakOrTakeOver.get_gap`: index of the first occupied cell of the window,
`np.where(gap)[0][0]`. -/
def BreakOrTakeOver.get_gap (gap_ahead_of_car : List Bool) : Int :=
  gap_ahead_of_car.findIdx id

/-- `BreakOrTakeOver.is_left_lane_clear`: the same forward window, taken in the
next lane, holds no car.  Note that the destination cell `(lane_idx+1, index)`
itself is not part of the window. -/
def BreakOrTakeOver.is_left_lane_clear (state : Grid) (lane_idx index speed : Nat) : Bool :=
  !(BreakOrTakeOver.check_following_vehicles (state.getD (lane_idx + 1) []) index speed).any id

/-- One iteration of the inner loop of `BreakOrTakeOver.apply`: the pair carries
the mutated grid and the per-lane `cars_indices_that_took_over` list. -/
def BreakOrTakeOver.laneStep (lanes i : Nat) (acc : Grid × List Nat) (index : Nat) :
    Grid × List Nat :=
  if index ∈ acc.2 then acc
  else
    let lane := acc.1.getD i []
    let speed := laneGet lane index
    if 0 < speed then
      let gap_ahead_of_car := BreakOrTakeOver.check_following_vehicles lane index speed.toNat
      if gap_ahead_of_car.any id then
        if i + 1 < lanes then
          if BreakOrTakeOver.is_left_lane_clear acc.1 i index speed.toNat then
            (gridSet (gridSet acc.1 i index (-1)) (i + 1) index speed, acc.2 ++ [index])
          else (gridSet acc.1 i index (BreakOrTakeOver.get_gap gap_ahead_of_car), acc.2)
        else (gridSet acc.1 i index (BreakOrTakeOver.get_gap gap_ahead_of_car), acc.2)
      else acc
    else acc

/-- `BreakOrTakeOver.apply`: lanes processed bottom-up, cells left to right, all
reads and writes on the one mutated grid; the taken-over list is reset after
each lane, exactly as in the source. -/
def BreakOrTakeOver.apply (state : Grid) : Grid :=
  (List.range state.length).foldl
    (fun st i =>
      ((List.range (st.getD i []).length).foldl (BreakOrTakeOver.laneStep state.length i)
        (st, [])).1)
    state

/-- `MoveForward.get_new_position`: one subtraction of `lane_len`, not a true
modulus — faithful to the source. -/
def MoveForward.get_new_position (lane_len : Nat) (index : Nat) (speed : Int) : Int :=
  let new_position : Int := index + speed
  if (lane_len : Int) ≤ new_position then new_position - lane_len else new_position

/-- numpy write `new_state[i, p] = v`: indices in `[-n, -1]` wrap, any other
out-of-range index raises `IndexError`. -/
def MoveForward.laneWrite (cur : Lane) (p : Int) (v : Int) : Except String Lane :=
  if 0 ≤ p ∧ p < (cur.length : Int) then .ok (cur.set p.toNat v)
  else if -(cur.length : Int) ≤ p ∧ p < 0 then .ok (cur.set (p + cur.length).toNat v)
  else .error "IndexError"

/-- One iteration of the inner loop of `MoveForward.apply`: a car is rewritten
at its new position, an empty cell contributes nothing. -/
def MoveForward.laneStepF (lane : Lane) (acc : Except String Lane) (index : Nat) :
    Except String Lane :=
  match acc with
  | .error e => .error e
  | .ok cur =>
    let speed := laneGet lane index
    if 0 ≤ speed then
      MoveForward.laneWrite cur (MoveForward.get_new_position lane.length index speed) speed
    else .ok cur

/-- Row `i` of `MoveForward.apply`: the source writes row `i` of the fresh grid
only from row `i` of the input, so rows are handled independently. -/
def MoveForward.applyLane (lane : Lane) : Except String Lane :=
  (List.range lane.length).foldl (MoveForward.laneStepF lane)
    (.ok (List.replicate lane.length (-1)))

/-- `MoveForward.apply`: every car is rewritten into a fresh all-empty grid. -/
def MoveForward.apply : Grid → Except String Grid
  | [] => .ok []
  | lane :: rest =>
    match MoveForward.applyLane lane, MoveForward.apply rest with
    | .ok l', .ok rest' => .ok (l' :: rest')
    | .error e, _ => .error e
    | _, .error e => .error e

/-- One iteration of the inner loop of `MergeBack.apply`. -/
def MergeBack.laneStep (i : Nat) (st : Grid) (index : Nat) : Grid :=
  if gridGet st i index = -1 then
    if gridGet st (i + 1) index ≠ -1 then
      gridSet (gridSet st i index (gridGet st (i + 1) index)) (i + 1) index (-1)
    else st
  else st

/-- `MergeBack.apply`: lanes `0 .. lanes-2` (the `break` skips the last lane),
pulling a car from the cell right above an empty cell. -/
def MergeBack.apply (state : Grid) : Grid :=
  (List.range (state.length - 1)).foldl
    (fun st i => (List.range (st.getD i []).length).foldl (MergeBack.laneStep i) st)
    state

/-- `DummyShuffleRule.apply`: `np.roll(state, 1, axis=1)`. -/
def DummyShuffleRule.apply (state : Grid) : Grid :=
  state.map (fun lane => lane.drop (lane.length - 1) ++ lane.take (lane.length - 1))

/-- Modelled from the spec: numpy's Mersenne-Twister stream is a pure function
of the seed; its exact values are not reproduced here, only its determinism.
This stand-in supplies one natural number per seed and draw position. -/
def prngNat (seed k : Nat) : Nat :=
  (seed * 2654435761 + k * 1103515245 + 12345) % 4294967296

/-- The persistent state of a `Dawdling` instance: the probability, the seed of
the owned `RandomState`, and how many `apply` calls the stream has served. -/
structure DawdlingState where
  dawning_fac : ℚ
  seed : Int
  calls : Nat
deriving DecidableEq, Repr

/-- Modelled from the spec: one Bernoulli(`p`) draw of `RandomState(seed)` at
call number `c`, cell `(i, j)` — `rand_gen.choice([0, 1], shape, p=[1-p, p])`. -/
def dawdDraw (p : ℚ) (seed : Int) (c i j : Nat) : Int :=
  if ((prngNat (seed.toNat + 7919 * c) (i * 2053 + j) % 1048576 : Nat) : ℚ) < p * 1048576
  then 1 else 0

/-- `Dawdling.apply`: subtract the 0/1 selection matrix, zeroed on cells `≤ 0`;
numpy rejects an invalid probability vector. -/
def Dawdling.apply (d : DawdlingState) (state : Grid) : Except String (Grid × DawdlingState) :=
  if 0 ≤ d.dawning_fac ∧ d.dawning_fac ≤ 1 then
    .ok ((List.range state.length).map (fun i =>
          let lane := state.getD i []
          (List.range lane.length).map (fun j =>
            let c := laneGet lane j
            if c ≤ 0 then c else c - dawdDraw d.dawning_fac d.seed d.calls i j)),
        { d with calls := d.calls + 1 })
  else .error "ValueError: probabilities are invalid"

/-! ## Street (`src/ca.py`) -/

/-- The `Street` object.  `state = none` models the `_state` attribute having
been popped from the instance dictionary by `Runner.serialize`. -/
structure Street where
  lanes : Int
  lane_len : Int
  n_cars : Int
  v_max : Int
  seed : Int
  state : Option Grid
deriving DecidableEq, Repr

/-- Modelled from the spec: `RandomState(seed).randint(0, v_max)`, the `k`-th
draw — a velocity in `[0, v_max)`, deterministic in the seed. -/
def npRandint (seed : Int) (k : Nat) (v_max : Int) : Int :=
  (prngNat seed.toNat (2 * k) % v_max.toNat : Nat)

/-- Modelled from the spec: `np.random.seed(seed); np.random.shuffle(indices)`
— a seed-determined permutation, modelled as a seed-determined rotation. -/
def npShuffle (seed : Int) (l : List Nat) : List Nat :=
  let k := prngNat seed.toNat 1 % (max 1 l.length)
  l.drop k ++ l.take k

/-- `flat_street[car_idxs] = velocities` on the all-empty flat street. -/
def initFlat (flat_len : Nat) (car_idxs : List Nat) (velocities : List Int) : List Int :=
  (car_idxs.zip velocities).foldl (fun fl p => fl.set p.1 p.2) (List.replicate flat_len (-1))

/-- `Street._init_state`: place `n_cars` drawn velocities at the first `n_cars`
shuffled flat indices, then reshape to `lanes × lane_len`. -/
def Street.init_state (lanes lane_len n_cars v_max seed : Int) : Grid :=
  let velocities := (List.range n_cars.toNat).map (fun k => npRandint seed k v_max)
  let flat_len := lanes.toNat * lane_len.toNat
  let indices := npShuffle seed (List.range flat_len)
  let car_idxs := indices.take n_cars.toNat
  let flat := initFlat flat_len car_idxs velocities
  (List.range lanes.toNat).map (fun i =>
    (List.range lane_len.toNat).map (fun j => flat.getD (i * lane_len.toNat + j) (-1)))

/-- `Street.__init__`: no explicit validation is performed; the `Except` cases
are the numpy failures that `_init_state` can raise — `randint(0, v_max)` with
an empty range (only reached when at least one velocity is drawn), a negative
flat size, a velocity/index count mismatch in the fancy assignment (numpy
broadcasts a single velocity), and a reshape with a negative dimension. -/
def mkStreet (lanes lane_len n_cars v_max seed : Int) : Except String Street :=
  if 1 ≤ n_cars ∧ v_max ≤ 0 then .error "ValueError: low >= high"
  else if lanes * lane_len < 0 then .error "ValueError: negative dimensions are not allowed"
  else
    let flat_len := lanes * lane_len
    let nIdx : Int := if 0 ≤ n_cars then min n_cars flat_len else max (flat_len + n_cars) 0
    let nVel : Int := max n_cars 0
    if nVel = nIdx ∨ nVel = 1 then
      if lanes < 0 ∨ lane_len < 0 then .error "ValueError: cannot reshape"
      else .ok ⟨lanes, lane_len, n_cars, v_max, seed,
        some (Street.init_state lanes lane_len n_cars v_max seed)⟩
    else .error "ValueError: shape mismatch"

/-- `Street.update`: the assert on the car count, then the state replacement. -/
def Street.update (s : Street) (new_state : Grid) : Except String Street :=
  if (occCount new_state : Int) = s.n_cars then .ok { s with state := some new_state }
  else .error "Number of cars is inconsistent!"

/-- `Street.get_state`: reading `_state` after it was popped raises. -/
def Street.get_state (s : Street) : Except String Grid :=
  match s.state with
  | some g => .ok g
  | none => .error "AttributeError: no attribute _state"

/-! ## Rule dispatch and the runner -/

/-- One rule instance of the pipeline, with its owned mutable state. -/
inductive RuleInst where
  | accelerate (v_max : Int)
  | breakOrTakeOver
  | dawdling (d : DawdlingState)
  | moveForward
  | mergeBack
  | dummyShuffle
deriving DecidableEq, Repr

/-- Polymorphic `AbstractRule.apply` dispatch; returns the updated instance. -/
def RuleInst.apply : RuleInst → Grid → Except String (Grid × RuleInst)
  | .accelerate v_max, g => .ok (Accelerate.apply v_max g, .accelerate v_max)
  | .breakOrTakeOver, g => .ok (BreakOrTakeOver.apply g, .breakOrTakeOver)
  | .dawdling d, g =>
    match Dawdling.apply d g with
    | .ok p => .ok (p.1, .dawdling p.2)
    | .error e => .error e
  | .moveForward, g =>
    match MoveForward.apply g with
    | .ok g' => .ok (g', .moveForward)
    | .error e => .error e
  | .mergeBack, g => .ok (MergeBack.apply g, .mergeBack)
  | .dummyShuffle, g => .ok (DummyShuffleRule.apply g, .dummyShuffle)

/-- `Runner._apply_rules`: each rule's output feeds the next rule. -/
def applyRules : List RuleInst → Grid → Except String (Grid × List RuleInst)
  | [], g => .ok (g, [])
  | r :: rs, g =>
    match r.apply g with
    | .error e => .error e
    | .ok p =>
      match applyRules rs p.1 with
      | .error e => .error e
      | .ok q => .ok (q.1, p.2 :: q.2)

/-- The `Runner` object. -/
structure Runner where
  street : Street
  rule_list : List RuleInst
  max_timesteps : Int := 250
  history : List Grid
deriving DecidableEq, Repr

/-- One iteration of the loop of `Runner.run`: iteration `0` appends the
unmodified current state; later iterations apply the pipeline, replace the
street state (with its assert) and append the result. -/
def Runner.step (r : Runner) (i : Nat) : Except String Runner :=
  match r.street.get_state with
  | .error e => .error e
  | .ok st =>
    if i = 0 then .ok { r with history := r.history ++ [st] }
    else
      match applyRules r.rule_list st with
      | .error e => .error e
      | .ok p =>
        match r.street.update p.1 with
        | .error e => .error e
        | .ok street' =>
          .ok { r with street := street', rule_list := p.2, history := r.history ++ [p.1] }

/-- One fold step of the loop of `Runner.run`; an exception freezes the
accumulator (flag `false`), leaving the runner as last committed. -/
def Runner.stepFold (acc : Runner × Bool) (i : Nat) : Runner × Bool :=
  if acc.2 then
    match acc.1.step i with
    | .ok r' => (r', true)
    | .error _ => (acc.1, false)
  else acc

/-- The loop of `Runner.run`. -/
def Runner.runAux (r : Runner) (is : List Nat) : Runner × Bool :=
  is.foldl Runner.stepFold (r, true)

/-- `Runner.run()`. -/
def Runner.run (r : Runner) : Runner × Bool :=
  r.runAux (List.range r.max_timesteps.toNat)

/-- `Runner.metric_avg_rel_speed`: per snapshot, the mean over occupied cells
divided by `v_max`; all-zero sequence of length `max_timesteps` when the
history is empty. -/
def Runner.metric_avg_rel_speed (r : Runner) : List ℚ :=
  if r.history.length = 0 then List.replicate r.max_timesteps.toNat 0
  else r.history.map (fun g => ((occSum g : ℚ) / (occCount g : ℚ)) / (r.street.v_max : ℚ))

/-- The slice `[..., -int(lane_len * 0.1):]` of one lane; a zero width keeps
the whole lane (numpy `[-0:]`), and the float factor is modelled by integer
division, which does not affect any bound proved here. -/
def lastStretchLane (w : Nat) (lane : Lane) : Lane :=
  if w = 0 then lane else lane.drop (lane.length - w)

/-- `Runner.metric_car_throughput`: occupied cells of the last stretch of each
snapshot. -/
def Runner.metric_car_throughput (r : Runner) : List Nat :=
  if r.history.length = 0 then List.replicate r.max_timesteps.toNat 0
  else
    let w := r.street.lane_len.toNat / 10
    r.history.map (fun g => occCount (g.map (lastStretchLane w)))

/-! ## Persistence (`Runner.serialize` / `Runner.deserialize`) -/

/-- The street attribute dictionary after `_state` was popped. -/
structure StreetParams where
  lanes : Int
  lane_len : Int
  n_cars : Int
  v_max : Int
  seed : Int
deriving DecidableEq, Repr

/-- The pickled artifact.  `pickle.dumps`/`pickle.loads` and
`np.savez_compressed`/`np.load` round-trip integer data bit-exactly, so the
byte level is modelled by the decoded record itself. -/
structure SerializedRunner where
  street_parameters : StreetParams
  rule_list : List RuleInst
  history_compressed : List Grid
deriving DecidableEq, Repr

/-- `np.array(history)` needs a rectangular `time × lanes × cells` block. -/
def isRect3 (h : List Grid) : Bool :=
  match h with
  | [] => true
  | g0 :: _ =>
    h.all (fun g => g.length = g0.length &&
      g.all (fun lane => lane.length = (g0.getD 0 []).length))

/-- `Runner.serialize`: builds the artifact and, as a side effect, pops
`_state` from the live street's attribute dictionary — the second component is
the runner as serialize leaves it. -/
def Runner.serialize (r : Runner) : Except String (SerializedRunner × Runner) :=
  if isRect3 r.history then
    .ok (⟨⟨r.street.lanes, r.street.lane_len, r.street.n_cars, r.street.v_max, r.street.seed⟩,
          r.rule_list, r.history⟩,
         { r with street := { r.street with state := none } })
  else .error "ValueError: ragged history"

/-- `Runner.deserialize`: rebuild the street from the stored parameters (which
re-derives a fresh initial state), restore the rules and the history; the new
runner gets the default `max_timesteps`. -/
def Runner.deserialize (b : SerializedRunner) : Except String Runner :=
  match mkStreet b.street_parameters.lanes b.street_parameters.lane_len
      b.street_parameters.n_cars b.street_parameters.v_max b.street_parameters.seed with
  | .error e => .error e
  | .ok street => .ok ⟨street, b.rule_list, 250, b.history_compressed⟩

/-! ## Reference run, for relating `Runner.run` to the pipeline recurrence -/

/-- Reference recurrence: `k` committed steps from grid `g`, each one a full
pipeline pass followed by the car-count assert of `Street.update`; returns the
appended snapshots in order. -/
def chainRun (n_cars : Int) : List RuleInst → Grid → Nat → Except String (List Grid)
  | _, _, 0 => .ok []
  | rules, g, Nat.succ k =>
    match applyRules rules g with
    | .error e => .error e
    | .ok p =>
      if (occCount p.1 : Int) = n_cars then
        match chainRun n_cars p.2 p.1 k with
        | .error e => .error e
        | .ok hs => .ok (p.1 :: hs)
      else .error "Number of cars is inconsistent!"

lemma chainRun_length {n_cars : Int} :
    ∀ {rules : List RuleInst} {g : Grid} {k : Nat} {hs : List Grid},
      chainRun n_cars rules g k = .ok hs → hs.length = k := by
  intro rules g k
  induction k generalizing rules g with
  | zero => intro hs h; simp only [chainRun] at h; cases h; rfl
  | succ k ih =>
    intro hs h
    simp only [chainRun] at h
    split at h
    · cases h
    · split at h
      · split at h
        · cases h
        · cases h
          simp only [List.length_cons]
          rw [ih (by assumption)]
      · cases h

lemma stepFold_frozen (is : List Nat) (r : Runner) :
    is.foldl Runner.stepFold (r, false) = (r, false) := by
  induction is with
  | nil => rfl
  | cons i is ih => simpa [Runner.stepFold] using ih

lemma stepFold_chain :
    ∀ (is : List Nat) (r : Runner) (g : Grid) (hs : List Grid),
      (∀ i ∈ is, i ≠ 0) → r.street.state = some g →
      chainRun r.street.n_cars r.rule_list g is.length = .ok hs →
      (is.foldl Runner.stepFold (r, true)).2 = true ∧
      (is.foldl Runner.stepFold (r, true)).1.history = r.history ++ hs := by
  intro is
  induction is with
  | nil =>
    intro r g hs _ _ hchain
    simp only [chainRun, List.length_nil] at hchain
    cases hchain
    simp
  | cons i is ih =>
    intro r g hs hnz hstate hchain
    simp only [List.length_cons, chainRun] at hchain
    split at hchain
    · cases hchain
    · rename_i p hp
      split at hchain
      · rename_i hcount
        split at hchain
        · cases hchain
        · rename_i hs' hchain'
          cases hchain
          have hstep : r.step i = .ok { r with
              street := { r.street with state := some p.1 },
              rule_list := p.2, history := r.history ++ [p.1] } := by
            simp only [Runner.step, Street.get_state, hstate, if_neg (hnz i (by simp)), hp,
              Street.update, if_pos hcount]
          have : (i :: is).foldl Runner.stepFold (r, true) =
              is.foldl Runner.stepFold ({ r with
                street := { r.street with state := some p.1 },
                rule_list := p.2, history := r.history ++ [p.1] }, true) := by
            simp [List.foldl_cons, Runner.stepFold, hstep]
          rw [this]
          have hres := ih { r with
              street := { r.street with state := some p.1 },
              rule_list := p.2, history := r.history ++ [p.1] } p.1 hs'
            (fun j hj => hnz j (by simp [hj])) rfl hchain'
          refine ⟨hres.1, ?_⟩
          rw [hres.2]
          simp
      · cases hchain

lemma mkStreet_fields {lanes lane_len n_cars v_max seed : Int} {st : Street}
    (h : mkStreet lanes lane_len n_cars v_max seed = .ok st) :
    st.lanes = lanes ∧ st.lane_len = lane_len ∧ st.n_cars = n_cars ∧
      st.v_max = v_max ∧ st.seed = seed := by
  simp only [mkStreet] at h
  split_ifs at h <;> cases h <;> exact ⟨rfl, rfl, rfl, rfl, rfl⟩

/-! ## Claim theorems -/

/-- Claim C1, evaluated at the failing input: `BreakOrTakeOver.apply` can
decrease the occupied-cell count.  On the two-lane grid below the car at
`(0, 0)` is blocked, finds the forward window of lane 1 clear (the window does
not include the destination cell `(1, 0)` itself) and is moved onto the
occupied cell `(1, 0)`, overwriting the stationary car there: three occupied
cells in, two out — contradicting the conservation the claim (and the assert
of `Street.update`) demands. -/
theorem claim1_break_or_take_over_loses_car :
    occCount [[1, 0, -1], [0, -1, -1]] = 3 ∧
    BreakOrTakeOver.apply [[1, 0, -1], [0, -1, -1]] = [[-1, 0, -1], [1, -1, -1]] ∧
    occCount (BreakOrTakeOver.apply [[1, 0, -1], [0, -1, -1]]) = 2 := by
  exact ⟨by decide, by decide, by decide⟩

/-- Claim C5, evaluated at the failing input: a car can change lanes twice in
one call of `BreakOrTakeOver.apply`.  On the three-lane grid below the car of
velocity 2 at `(0, 0)` is first moved to `(1, 0)`; when lane 1 is processed the
taken-over list has been reset, the car is blocked by the other moved car at
`(1, 1)` and is moved again to `(2, 0)`: the output has an occupied cell in
lane 2 at an index where both lane 2 and lane 1 were empty in the input, which
is impossible if no car changes lanes more than once. -/
theorem claim5_double_overtake :
    BreakOrTakeOver.apply [[2, 1, 0, -1], [-1, -1, -1, -1], [-1, -1, -1, -1]] =
      [[-1, -1, 0, -1], [-1, 1, -1, -1], [2, -1, -1, -1]] ∧
    0 ≤ gridGet (BreakOrTakeOver.apply
      [[2, 1, 0, -1], [-1, -1, -1, -1], [-1, -1, -1, -1]]) 2 0 ∧
    gridGet [[2, 1, 0, -1], [-1, -1, -1, -1], [-1, -1, -1, -1]] 2 0 < 0 ∧
    gridGet [[2, 1, 0, -1], [-1, -1, -1, -1], [-1, -1, -1, -1]] 1 0 < 0 := by
  exact ⟨by decide, by decide, by decide, by decide⟩

/-- Claim C4, counterexample to the claim as stated: the first iteration of
`Runner.run` does not pass the grid through the pipeline — it appends the
unmodified initial state, so `history[0]` differs from the pipeline output on
the initial grid. -/
theorem claim4_first_entry_not_pipelined :
    ((Runner.run ⟨⟨1, 3, 1, 5, 0, some [[0, -1, -1]]⟩,
        [.accelerate 5], 2, []⟩).1.history.getD 0 []) = [[0, -1, -1]] ∧
    applyRules [.accelerate 5] [[0, -1, -1]] = .ok ([[1, -1, -1]], [.accelerate 5]) ∧
    ([[0, -1, -1]] : Grid) ≠ [[1, -1, -1]] := by
  exact ⟨by decide, rfl, by decide⟩

/-- Claim C4 as amended: iteration 0 appends the unmodified current grid; each
of the remaining `max_timesteps - 1` iterations feeds the current grid through
the pipeline in order, replaces the street state (car-count assert included)
and appends the result, so a completed run extends the history — never
removing or reordering existing entries — by `max_timesteps` snapshots
satisfying the recurrence of `chainRun`. -/
theorem claim4_run_semantics (r : Runner) (g0 : Grid) (hs : List Grid) (k : Nat)
    (hstate : r.street.state = some g0) (hmax : r.max_timesteps.toNat = k + 1)
    (hchain : chainRun r.street.n_cars r.rule_list g0 k = .ok hs) :
    (r.run).2 = true ∧ (r.run).1.history = r.history ++ g0 :: hs ∧
    (g0 :: hs).length = r.max_timesteps.toNat := by
  have hlen := chainRun_length hchain
  have hrange : List.range r.max_timesteps.toNat = 0 :: (List.range k).map Nat.succ := by
    rw [hmax, List.range_succ_eq_map]
  have hstep0 : r.step 0 = .ok { r with history := r.history ++ [g0] } := by
    simp [Runner.step, Street.get_state, hstate]
  have hfold : r.run = ((List.range k).map Nat.succ).foldl Runner.stepFold
      ({ r with history := r.history ++ [g0] }, true) := by
    simp [Runner.run, Runner.runAux, hrange, Runner.stepFold, hstep0]
  have hres := stepFold_chain ((List.range k).map Nat.succ)
      { r with history := r.history ++ [g0] } g0 hs
      (by
        intro i hi
        simp only [List.mem_map] at hi
        obtain ⟨j, _, rfl⟩ := hi
        exact Nat.succ_ne_zero j)
      hstate
      (by simpa using hchain)
  refine ⟨?_, ?_, ?_⟩
  · rw [hfold]; exact hres.1
  · rw [hfold, hres.2]; simp
  · simp [hmax, hlen]

/-- Witness for the amended C4: a one-car street, pipeline `[Accelerate 5]`,
two timesteps; the run completes and the history is the initial grid followed
by one pipeline pass. -/
theorem claim4_run_semantics_witness :
    ((Runner.run ⟨⟨1, 3, 1, 5, 0, some [[0, -1, -1]]⟩, [.accelerate 5], 2, []⟩).2 = true ∧
     (Runner.run ⟨⟨1, 3, 1, 5, 0, some [[0, -1, -1]]⟩,
        [.accelerate 5], 2, []⟩).1.history =
       [] ++ [[0, -1, -1]] :: [[[1, -1, -1]]] ∧
     ([[0, -1, -1]] :: [[[1, -1, -1]]]).length = (2 : Int).toNat) :=
  claim4_run_semantics ⟨⟨1, 3, 1, 5, 0, some [[0, -1, -1]]⟩, [.accelerate 5], 2, []⟩
    [[0, -1, -1]] [[[1, -1, -1]]] 1 rfl (by decide) rfl

/-- Claim C9, counterexample to the claim as stated: `Street.__init__`
validates nothing, and with `n_cars = 0` (a non-positive car count) and
otherwise positive parameters the construction succeeds — no error of any kind
is raised. -/
theorem claim9_zero_cars_constructs :
    ∃ st, mkStreet 1 10 0 5 0 = .ok st ∧ st.n_cars = 0 :=
  ⟨_, rfl, rfl⟩

/-- Claim C9 as amended: `Street` performs no explicit configuration check and
no `ConfigurationError` exists; what does happen at construction time is that
`_init_state` hits library errors for some invalid configurations —
`randint(0, v_max)` with `v_max ≤ 0` when at least one velocity is drawn, and
the velocity/index assignment when `n_cars` exceeds the `lanes × lane_len`
capacity — while `n_cars = 0` constructs successfully. -/
theorem claim9_construction_unvalidated (lanes lane_len n_cars v_max seed : Int)
    (hl : 1 ≤ lanes) (hll : 1 ≤ lane_len) :
    (n_cars = 0 → ∃ st, mkStreet lanes lane_len n_cars v_max seed = .ok st) ∧
    (1 ≤ n_cars → v_max ≤ 0 →
      ∃ e, mkStreet lanes lane_len n_cars v_max seed = .error e) ∧
    (lanes * lane_len < n_cars → 1 ≤ v_max →
      ∃ e, mkStreet lanes lane_len n_cars v_max seed = .error e) := by
  have hflat : 0 < lanes * lane_len := mul_pos (by omega) (by omega)
  refine ⟨?_, ?_, ?_⟩
  · rintro rfl
    refine ⟨⟨lanes, lane_len, 0, v_max, seed,
      some (Street.init_state lanes lane_len 0 v_max seed)⟩, ?_⟩
    simp only [mkStreet]
    rw [if_neg (by omega : ¬((1 : Int) ≤ 0 ∧ v_max ≤ 0))]
    rw [if_neg (not_lt.mpr hflat.le)]
    rw [if_pos (le_refl (0 : Int)), min_eq_left hflat.le]
    rw [if_pos (Or.inl (max_self (0 : Int)))]
    rw [if_neg (by omega : ¬(lanes < 0 ∨ lane_len < 0))]
  · intro h1 h2
    refine ⟨"ValueError: low >= high", ?_⟩
    simp only [mkStreet]
    rw [if_pos ⟨h1, h2⟩]
  · intro hcap hv
    have h2n : 2 ≤ n_cars := by
      have h1f : 1 ≤ lanes * lane_len := Int.lt_iff_add_one_le.mp hflat
      have := Int.lt_iff_add_one_le.mp hcap
      omega
    refine ⟨"ValueError: shape mismatch", ?_⟩
    simp only [mkStreet]
    rw [if_neg (by omega : ¬(1 ≤ n_cars ∧ v_max ≤ 0))]
    rw [if_neg (not_lt.mpr hflat.le)]
    rw [if_pos (by omega : (0 : Int) ≤ n_cars), min_eq_right hcap.le]
    rw [max_eq_left (by omega : (0 : Int) ≤ n_cars)]
    rw [if_neg ?_]
    rintro (h | h)
    · have h1f : 1 ≤ lanes * lane_len := Int.lt_iff_add_one_le.mp hflat
      omega
    · omega

/-- Witness for the amended C9: at `lanes = 2`, `lane_len = 5`, the three
branches instantiate — `n_cars = 0` constructs, `v_max = 0` with a car fails,
`n_cars = 11 > 10` fails. -/
theorem claim9_construction_unvalidated_witness :
    ((0 : Int) = 0 → ∃ st, mkStreet 2 5 0 3 1 = .ok st) ∧
    ((1 : Int) ≤ 0 → (3 : Int) ≤ 0 → ∃ e, mkStreet 2 5 0 3 1 = .error e) ∧
    ((2 : Int) * 5 < 0 → (1 : Int) ≤ 3 → ∃ e, mkStreet 2 5 0 3 1 = .error e) :=
  claim9_construction_unvalidated 2 5 0 3 1 (by decide) (by decide)

/-- Claim C2: serialize/deserialize round-trip — the rebuilt runner's history
is element-wise equal to the original's, and the rebuilt street carries the
same five configuration values.  The hypotheses are the claim's own: a
non-empty history of (rectangular) integer snapshots, and a street that the
`Street` constructor can actually produce. -/
theorem claim2_serialize_roundtrip (r : Runner) (hne : r.history ≠ [])
    (hrect : isRect3 r.history = true) (st' : Street)
    (hmk : mkStreet r.street.lanes r.street.lane_len r.street.n_cars r.street.v_max
        r.street.seed = .ok st') :
    ∃ b r1 r2, r.serialize = .ok (b, r1) ∧ Runner.deserialize b = .ok r2 ∧
      r2.history = r.history ∧ r2.street.lanes = r.street.lanes ∧
      r2.street.lane_len = r.street.lane_len ∧ r2.street.n_cars = r.street.n_cars ∧
      r2.street.v_max = r.street.v_max ∧ r2.street.seed = r.street.seed := by
  obtain ⟨f1, f2, f3, f4, f5⟩ := mkStreet_fields hmk
  refine ⟨⟨⟨r.street.lanes, r.street.lane_len, r.street.n_cars, r.street.v_max,
      r.street.seed⟩, r.rule_list, r.history⟩,
    { r with street := { r.street with state := none } },
    ⟨st', r.rule_list, 250, r.history⟩, ?_, ?_, rfl, f1, f2, f3, f4, f5⟩
  · simp [Runner.serialize, hrect]
  · simp [Runner.deserialize, hmk]

/-- Witness for C2 at a concrete one-snapshot runner. -/
theorem claim2_serialize_roundtrip_witness :
    ∃ b r1 r2,
      (Runner.serialize ⟨⟨1, 3, 1, 5, 0, some [[0, -1, -1]]⟩, [], 250,
        [[[0, -1, -1]]]⟩) = .ok (b, r1) ∧
      Runner.deserialize b = .ok r2 ∧
      r2.history = [[[0, -1, -1]]] ∧
      r2.street.lanes = 1 ∧ r2.street.lane_len = 3 ∧ r2.street.n_cars = 1 ∧
      r2.street.v_max = 5 ∧ r2.street.seed = 0 :=
  claim2_serialize_roundtrip ⟨⟨1, 3, 1, 5, 0, some [[0, -1, -1]]⟩, [], 250, [[[0, -1, -1]]]⟩
    (by decide) (by decide)
    ((mkStreet 1 3 1 5 0).toOption.getD ⟨0, 0, 0, 0, 0, none⟩) rfl

/-- Claim C3, counterexample to the claim as stated: after `serialize()` the
street has lost `_state`, yet `Street.update` still succeeds — it only asserts
the car count of the new grid and then (re)sets `_state` — so "any subsequent
update() fails" is wrong. -/
theorem claim3_update_succeeds_after_serialize :
    ∃ b r1 st',
      (Runner.serialize ⟨⟨1, 3, 1, 5, 0, some [[0, -1, -1]]⟩, [], 1,
        [[[0, -1, -1]]]⟩) = .ok (b, r1) ∧
      r1.street.update [[2, -1, -1]] = .ok st' :=
  ⟨_, _, _, rfl, rfl⟩

/-- Claim C3 as amended: `serialize()` pops `_state` from the live street's
attribute dictionary, so the runner it was called on is left with a street
without a current grid: `get_state()` raises, a subsequent `run()` fails on its
first iteration leaving the runner unchanged, while the history and the
returned artifact are unaffected (`update()` with a count-matching grid,
however, still succeeds — see the counterexample). -/
theorem claim3_serialize_frame_effect (r : Runner) (b : SerializedRunner) (r1 : Runner)
    (hser : r.serialize = .ok (b, r1)) (hmax : 1 ≤ r.max_timesteps) :
    r1.street.state = none ∧ (∃ e, r1.street.get_state = .error e) ∧
    (r1.run).2 = false ∧ (r1.run).1 = r1 ∧
    r1.history = r.history ∧ b.history_compressed = r.history := by
  simp only [Runner.serialize] at hser
  split_ifs at hser with hrect
  · rw [Except.ok.injEq, Prod.mk.injEq] at hser
    obtain ⟨hb, hr1⟩ := hser
    subst hb
    subst hr1
    have h1 : (1 : Nat) ≤ r.max_timesteps.toNat := by omega
    have hrange : List.range r.max_timesteps.toNat =
        0 :: (List.range (r.max_timesteps.toNat - 1)).map Nat.succ := by
      rw [show r.max_timesteps.toNat = (r.max_timesteps.toNat - 1) + 1 by omega,
        List.range_succ_eq_map]
      simp
    have hrun : Runner.run { r with street := { r.street with state := none } } =
        ({ r with street := { r.street with state := none } }, false) := by
      simp only [Runner.run, Runner.runAux, hrange, List.foldl_cons]
      rw [show Runner.stepFold ({ r with street := { r.street with state := none } }, true) 0 =
          ({ r with street := { r.street with state := none } }, false) by
        simp [Runner.stepFold, Runner.step, Street.get_state]]
      rw [stepFold_frozen]
    exact ⟨rfl, ⟨_, rfl⟩, by rw [hrun], by rw [hrun], rfl, rfl⟩

/-- Witness for the amended C3 at a concrete runner. -/
theorem claim3_serialize_frame_effect_witness :
    (⟨1, 3, 1, 5, 0, none⟩ : Street).state = none ∧
    (∃ e, (⟨1, 3, 1, 5, 0, none⟩ : Street).get_state = .error e) ∧
    ((Runner.run ⟨⟨1, 3, 1, 5, 0, none⟩, [], 1, [[[0, -1, -1]]]⟩).2 = false) ∧
    ((Runner.run ⟨⟨1, 3, 1, 5, 0, none⟩, [], 1, [[[0, -1, -1]]]⟩).1 =
      ⟨⟨1, 3, 1, 5, 0, none⟩, [], 1, [[[0, -1, -1]]]⟩) ∧
    ([[[0, -1, -1]]] : List Grid) = [[[0, -1, -1]]] ∧
    (⟨⟨1, 3, 1, 5, 0⟩, [], [[[0, -1, -1]]]⟩ : SerializedRunner).history_compressed =
      [[[0, -1, -1]]] :=
  claim3_serialize_frame_effect
    ⟨⟨1, 3, 1, 5, 0, some [[0, -1, -1]]⟩, [], 1, [[[0, -1, -1]]]⟩
    ⟨⟨1, 3, 1, 5, 0⟩, [], [[[0, -1, -1]]]⟩
    ⟨⟨1, 3, 1, 5, 0, none⟩, [], 1, [[[0, -1, -1]]]⟩
    rfl (by decide)

/-- Claim C8: two runners over streets built from identical configuration
(lanes, lane_len, n_cars, v_max, seed) with equal pipelines and equal step
budgets produce identical histories — every random draw (car placement,
initial velocities, dawdling decisions) is a function of the explicit seeds,
so street construction is deterministic and the run is a pure function of its
inputs. -/
theorem claim8_determinism (lanes lane_len n_cars v_max seed max_t : Int)
    (rules : List RuleInst) (s1 s2 : Street)
    (h1 : mkStreet lanes lane_len n_cars v_max seed = .ok s1)
    (h2 : mkStreet lanes lane_len n_cars v_max seed = .ok s2) :
    (Runner.run ⟨s1, rules, max_t, []⟩).1.history =
      (Runner.run ⟨s2, rules, max_t, []⟩).1.history := by
  rw [h1] at h2
  cases h2
  rfl

/-- Witness for C8 at a concrete configuration and pipeline. -/
theorem claim8_determinism_witness :
    (Runner.run ⟨(mkStreet 2 5 3 4 7).toOption.getD ⟨0, 0, 0, 0, 0, none⟩,
        [.accelerate 4, .breakOrTakeOver], 3, []⟩).1.history =
      (Runner.run ⟨(mkStreet 2 5 3 4 7).toOption.getD ⟨0, 0, 0, 0, 0, none⟩,
        [.accelerate 4, .breakOrTakeOver], 3, []⟩).1.history :=
  claim8_determinism 2 5 3 4 7 3 [.accelerate 4, .breakOrTakeOver]
    ((mkStreet 2 5 3 4 7).toOption.getD ⟨0, 0, 0, 0, 0, none⟩)
    ((mkStreet 2 5 3 4 7).toOption.getD ⟨0, 0, 0, 0, 0, none⟩)
    rfl rfl

/-! ## Metrics bounds (claim C10) -/

lemma occSum_nonneg (g : Grid) : 0 ≤ occSum g := by
  apply List.sum_nonneg
  intro x hx
  simp only [List.mem_filter, decide_eq_true_eq] at hx
  exact hx.2

lemma occSum_le_count_mul (g : Grid) (v : Int) (hv : ∀ c ∈ gridCells g, c ≤ v) :
    occSum g ≤ (occCount g : Int) * v := by
  rw [occSum, occCount, List.countP_eq_length_filter]
  calc ((gridCells g).filter (fun c => decide (0 ≤ c))).sum
      ≤ ((gridCells g).filter (fun c => decide (0 ≤ c))).length • v := by
        apply List.sum_le_card_nsmul
        intro x hx
        exact hv x (List.mem_of_mem_filter hx)
    _ = (((gridCells g).filter (fun c => decide (0 ≤ c))).length : Int) * v := by
        rw [nsmul_eq_mul]

lemma occCount_lastStretch_le (w : Nat) (g : Grid) :
    occCount (g.map (lastStretchLane w)) ≤ occCount g := by
  induction g with
  | nil => simp [occCount, gridCells]
  | cons lane rest ih =>
    have ih' : ((gridCells (rest.map (lastStretchLane w))).countP (fun c => decide (0 ≤ c))) ≤
        (gridCells rest).countP (fun c => decide (0 ≤ c)) := ih
    simp only [occCount, gridCells, List.map_cons, List.flatten_cons, List.countP_append]
    have h1 : (lastStretchLane w lane).countP (fun c => decide (0 ≤ c)) ≤
        lane.countP (fun c => decide (0 ≤ c)) := by
      unfold lastStretchLane
      split
      · exact le_refl _
      · exact List.Sublist.countP_le _ (List.drop_sublist _ _)
    exact Nat.add_le_add h1 ih'

/-- Claim C10: for a runner whose (non-empty) history consists of snapshots
with values in `[-1, v_max]` and exactly `n_cars ≥ 1` occupied cells,
`metric_avg_rel_speed` yields one value per snapshot, each in `[0, 1]`, and
`metric_car_throughput` one count per snapshot, each at most `n_cars`; on an
empty history `metric_avg_rel_speed` is the all-zero sequence of length
`max_timesteps`.  (`1 ≤ v_max` holds for every constructible street with at
least one car: `mkStreet` fails otherwise.) -/
theorem claim10_metric_bounds (r : Runner)
    (hcars : 1 ≤ r.street.n_cars) (hvmax : 1 ≤ r.street.v_max)
    (hsnap : ∀ g ∈ r.history,
      (∀ c ∈ gridCells g, -1 ≤ c ∧ c ≤ r.street.v_max) ∧
      (occCount g : Int) = r.street.n_cars)
    (hne : r.history ≠ []) :
    (r.metric_avg_rel_speed).length = r.history.length ∧
    (∀ x ∈ r.metric_avg_rel_speed, 0 ≤ x ∧ x ≤ 1) ∧
    (r.metric_car_throughput).length = r.history.length ∧
    (∀ c ∈ r.metric_car_throughput, (c : Int) ≤ r.street.n_cars) ∧
    (∀ r' : Runner, r'.history = [] →
      Runner.metric_avg_rel_speed r' = List.replicate r'.max_timesteps.toNat 0) := by
  have hlz : ¬(r.history.length = 0) := fun h => hne (List.length_eq_zero.mp h)
  refine ⟨?_, ?_, ?_, ?_, ?_⟩
  · simp [Runner.metric_avg_rel_speed, hne]
  · intro x hx
    simp only [Runner.metric_avg_rel_speed, if_neg hlz, List.mem_map] at hx
    obtain ⟨g, hg, rfl⟩ := hx
    obtain ⟨hrange, hcount⟩ := hsnap g hg
    have hC1 : (1 : Int) ≤ (occCount g : Int) := by rw [hcount]; exact hcars
    have hC1n : 1 ≤ occCount g := by exact_mod_cast hC1
    have hCq : (0 : ℚ) < (occCount g : ℚ) := by
      exact_mod_cast Nat.lt_of_lt_of_le Nat.zero_lt_one hC1n
    have hVq : (0 : ℚ) < (r.street.v_max : ℚ) := by exact_mod_cast lt_of_lt_of_le one_pos hvmax
    have hSq : (0 : ℚ) ≤ (occSum g : ℚ) := by exact_mod_cast occSum_nonneg g
    constructor
    · positivity
    · rw [div_div, div_le_one (by positivity)]
      have hle : occSum g ≤ (occCount g : Int) * r.street.v_max :=
        occSum_le_count_mul g r.street.v_max (fun c hc => (hrange c hc).2)
      exact_mod_cast hle
  · simp [Runner.metric_car_throughput, hne]
  · intro c hc
    simp only [Runner.metric_car_throughput, if_neg hlz, List.mem_map] at hc
    obtain ⟨g, hg, rfl⟩ := hc
    have h1 := occCount_lastStretch_le (r.street.lane_len.toNat / 10) g
    have h2 := (hsnap g hg).2
    omega
  · intro r' h
    simp [Runner.metric_avg_rel_speed, h]

/-- Witness for C10 at a one-car, one-snapshot runner: the average relative
speed sequence is `[2/5]`. -/
theorem claim10_metric_bounds_witness :
    ((Runner.metric_avg_rel_speed ⟨⟨1, 3, 1, 5, 0, some [[2, -1, -1]]⟩, [], 1,
        [[[2, -1, -1]]]⟩).length = ([[[2, -1, -1]]] : List Grid).length ∧
      (∀ x ∈ Runner.metric_avg_rel_speed ⟨⟨1, 3, 1, 5, 0, some [[2, -1, -1]]⟩, [], 1,
        [[[2, -1, -1]]]⟩, 0 ≤ x ∧ x ≤ 1) ∧
      (Runner.metric_car_throughput ⟨⟨1, 3, 1, 5, 0, some [[2, -1, -1]]⟩, [], 1,
        [[[2, -1, -1]]]⟩).length = ([[[2, -1, -1]]] : List Grid).length ∧
      (∀ c ∈ Runner.metric_car_throughput ⟨⟨1, 3, 1, 5, 0, some [[2, -1, -1]]⟩, [], 1,
        [[[2, -1, -1]]]⟩, (c : Int) ≤ (1 : Int)) ∧
      (∀ r' : Runner, r'.history = [] →
        Runner.metric_avg_rel_speed r' = List.replicate r'.max_timesteps.toNat 0)) :=
  claim10_metric_bounds ⟨⟨1, 3, 1, 5, 0, some [[2, -1, -1]]⟩, [], 1, [[[2, -1, -1]]]⟩
    (by decide) (by decide) (by decide) (by decide)

/-! ## MoveForward placement (claim C7) -/

/-- The modular destination `(index + velocity) mod length` of the spec. -/
def destIdx (lane : Lane) (j : Nat) : Nat := (j + (laneGet lane j).toNat) % lane.length

lemma laneGet_replicate (n t : Nat) : laneGet (List.replicate n (-1 : Int)) t = -1 := by
  unfold laneGet
  rcases Nat.lt_or_ge t n with h | h
  · rw [List.getD_eq_getElem _ _ (by simpa using h)]
    simp
  · rw [List.getD_eq_default _ _ (by simpa using h)]

lemma laneGet_set_eq (l : Lane) (i : Nat) (v : Int) (h : i < l.length) :
    laneGet (l.set i v) i = v := by
  unfold laneGet
  rw [List.getD_eq_getElem _ _ (by simpa using h)]
  simp [List.getElem_set_self]

lemma laneGet_set_ne (l : Lane) (i j : Nat) (v : Int) (h : i ≠ j) :
    laneGet (l.set i v) j = laneGet l j := by
  unfold laneGet
  rw [List.getD_eq_getElem?_getD, List.getD_eq_getElem?_getD, List.getElem?_set_ne h]

lemma get_new_position_spec (n j k : Nat) (hk : (k : Int) ≤ (n : Int)) (hj : j < n) :
    MoveForward.get_new_position n j (k : Int) = (((j + k) % n : Nat) : Int) := by
  show (if (n : Int) ≤ (j : Int) + (k : Int) then (j : Int) + (k : Int) - (n : Int)
    else (j : Int) + (k : Int)) = (((j + k) % n : Nat) : Int)
  split
  · rename_i h
    have h1 : n ≤ j + k := by exact_mod_cast h
    have hmod : (j + k) % n = j + k - n := by
      rw [Nat.mod_eq_sub_mod h1, Nat.mod_eq_of_lt (by omega)]
    rw [hmod]
    push_cast [Nat.cast_sub h1]
    ring
  · rename_i h
    have h1 : j + k < n := by
      by_contra hc
      exact h (by exact_mod_cast Nat.le_of_not_lt hc)
    rw [Nat.mod_eq_of_lt h1]
    push_cast
    ring

lemma laneWrite_spec (cur : Lane) (q : Nat) (v : Int) (h : q < cur.length) :
    MoveForward.laneWrite cur (q : Int) v = .ok (cur.set q v) := by
  unfold MoveForward.laneWrite
  rw [if_pos ⟨Int.natCast_nonneg q, by exact_mod_cast h⟩]
  simp

lemma moveForward_fold_spec (lane : Lane) (v_max : Int)
    (hrange : ∀ c ∈ lane, c ≤ v_max) (hlen : v_max ≤ (lane.length : Int))
    (hinj : ∀ j1 j2, j1 < lane.length → j2 < lane.length → 0 ≤ laneGet lane j1 →
      0 ≤ laneGet lane j2 → destIdx lane j1 = destIdx lane j2 → j1 = j2) :
    ∀ m, m ≤ lane.length →
    ∃ cur, (List.range m).foldl (MoveForward.laneStepF lane)
        (.ok (List.replicate lane.length (-1))) = .ok cur ∧
      cur.length = lane.length ∧
      (∀ j, j < m → 0 ≤ laneGet lane j → laneGet cur (destIdx lane j) = laneGet lane j) ∧
      (∀ t, t < lane.length →
        (∀ j, j < m → 0 ≤ laneGet lane j → destIdx lane j ≠ t) → laneGet cur t = -1) := by
  intro m
  induction m with
  | zero =>
    intro _
    refine ⟨List.replicate lane.length (-1), rfl, by simp, ?_, ?_⟩
    · intro j hj _
      omega
    · intro t _ _
      exact laneGet_replicate _ _
  | succ m ih =>
    intro hm1
    have hmn : m < lane.length := hm1
    obtain ⟨cur, hfold, hlen', hcl2, hcl3⟩ := ih (le_of_lt hmn)
    rw [List.range_succ, List.foldl_append, hfold]
    simp only [List.foldl_cons, List.foldl_nil]
    by_cases hocc : 0 ≤ laneGet lane m
    · have hstep : MoveForward.laneStepF lane (.ok cur) m =
          .ok (cur.set (destIdx lane m) (laneGet lane m)) := by
        have hvle : laneGet lane m ≤ v_max := by
          have hmem : laneGet lane m ∈ lane := by
            unfold laneGet
            rw [List.getD_eq_getElem _ _ (by simpa using hmn)]
            exact List.getElem_mem _
          exact hrange _ hmem
        have hks : ((laneGet lane m).toNat : Int) = laneGet lane m := Int.toNat_of_nonneg hocc
        have hkn : ((laneGet lane m).toNat : Int) ≤ (lane.length : Int) := by
          rw [hks]; exact le_trans hvle hlen
        simp only [MoveForward.laneStepF, if_pos hocc]
        rw [show laneGet lane m = ((laneGet lane m).toNat : Int) from hks.symm]
        rw [get_new_position_spec lane.length m (laneGet lane m).toNat hkn hmn]
        rw [laneWrite_spec cur _ _ (by rw [hlen']; exact Nat.mod_lt _ (by omega))]
        rw [hks]
        rfl
      rw [hstep]
      refine ⟨_, rfl, by simpa using hlen', ?_, ?_⟩
      · intro j hj hoccj
        rcases Nat.lt_or_ge j m with hjm | hjm
        · have hne : destIdx lane m ≠ destIdx lane j := fun h =>
            absurd (hinj j m (lt_trans hjm hmn) hmn hoccj hocc h.symm)
              (Nat.ne_of_lt hjm)
          rw [laneGet_set_ne _ _ _ _ hne]
          exact hcl2 j hjm hoccj
        · have hjm' : j = m := by omega
          subst hjm'
          exact laneGet_set_eq _ _ _ (by rw [hlen']; exact Nat.mod_lt _ (by omega))
      · intro t ht hnd
        have hne : destIdx lane m ≠ t := hnd m (Nat.lt_succ_self m) hocc
        rw [laneGet_set_ne _ _ _ _ hne]
        exact hcl3 t ht (fun j hj hj2 => hnd j (Nat.lt_succ_of_lt hj) hj2)
    · have hstep : MoveForward.laneStepF lane (.ok cur) m = .ok cur := by
        simp only [MoveForward.laneStepF, if_neg hocc]
      rw [hstep]
      refine ⟨cur, rfl, hlen', ?_, ?_⟩
      · intro j hj hoccj
        rcases Nat.lt_or_ge j m with hjm | hjm
        · exact hcl2 j hjm hoccj
        · have : j = m := by omega
          subst this
          exact absurd hoccj hocc
      · intro t ht hnd
        exact hcl3 t ht (fun j hj hj2 => hnd j (Nat.lt_succ_of_lt hj) hj2)

lemma moveForward_applyLane_spec (lane : Lane) (v_max : Int)
    (hrange : ∀ c ∈ lane, c ≤ v_max) (hlen : v_max ≤ (lane.length : Int))
    (hinj : ∀ j1 j2, j1 < lane.length → j2 < lane.length → 0 ≤ laneGet lane j1 →
      0 ≤ laneGet lane j2 → destIdx lane j1 = destIdx lane j2 → j1 = j2) :
    ∃ l', MoveForward.applyLane lane = .ok l' ∧ l'.length = lane.length ∧
      (∀ j, j < lane.length → 0 ≤ laneGet lane j →
        laneGet l' (destIdx lane j) = laneGet lane j) ∧
      (∀ t, t < lane.length →
        (∀ j, j < lane.length → 0 ≤ laneGet lane j → destIdx lane j ≠ t) →
        laneGet l' t = -1) :=
  moveForward_fold_spec lane v_max hrange hlen hinj lane.length (le_refl _)

/-- Claim C7, counterexample to the claim as stated: two cars may target the
same destination, and the later-processed write overwrites the earlier one —
on `[[2, 1, -1]]` both cars map to cell 2 and the final grid holds only the
second car's velocity, so the first car of velocity 2 is not at
`(0 + 2) % 3 = 2`. -/
theorem claim7_collision_overwrite :
    MoveForward.apply [[2, 1, -1]] = .ok [[-1, -1, 1]] ∧
    gridGet [[2, 1, -1]] 0 0 = 2 ∧ (0 + 2) % 3 = 2 ∧
    gridGet [[-1, -1, 1]] 0 2 = 1 ∧ (1 : Int) ≠ 2 :=
  ⟨rfl, by decide, by decide, by decide, by decide⟩

/-- Claim C7 as amended: on a grid with values in `[-1, v_max]`, `v_max` at
most the lane length, and distinct destinations among the occupied cells of
each lane, `MoveForward.apply` succeeds with a grid of the same shape in which
every car of velocity `v` at index `j` sits, velocity unchanged, at
`(j + v) % length`, and every cell that is no car's destination is `-1`.
(Without the two extra premises the claim fails: destinations can collide —
see the counterexample — and a velocity above the lane length makes the
single-subtraction `get_new_position` produce an out-of-range index, an
`IndexError`, instead of the modulus.) -/
theorem claim7_move_forward_placement (state : Grid) (v_max : Int)
    (hrange : ∀ lane ∈ state, ∀ c ∈ lane, -1 ≤ c ∧ c ≤ v_max)
    (hlen : ∀ lane ∈ state, v_max ≤ (lane.length : Int))
    (hinj : ∀ lane ∈ state, ∀ j1 j2, j1 < lane.length → j2 < lane.length →
      0 ≤ laneGet lane j1 → 0 ≤ laneGet lane j2 →
      destIdx lane j1 = destIdx lane j2 → j1 = j2) :
    ∃ g', MoveForward.apply state = .ok g' ∧ g'.length = state.length ∧
      (∀ i, i < state.length → (g'.getD i []).length = (state.getD i []).length) ∧
      (∀ i j, i < state.length → j < (state.getD i []).length →
        0 ≤ gridGet state i j →
        gridGet g' i (destIdx (state.getD i []) j) = gridGet state i j) ∧
      (∀ i t, i < state.length → t < (state.getD i []).length →
        (∀ j, j < (state.getD i []).length → 0 ≤ gridGet state i j →
          destIdx (state.getD i []) j ≠ t) →
        gridGet g' i t = -1) := by
  induction state with
  | nil =>
    refine ⟨[], rfl, rfl, ?_, ?_, ?_⟩
    · intro i hi; simp at hi
    · intro i j hi; simp at hi
    · intro i t hi; simp at hi
  | cons lane rest ih =>
    obtain ⟨l', hl', hlen1, hc2, hc3⟩ := moveForward_applyLane_spec lane v_max
      (fun c hc => (hrange lane (by simp) c hc).2) (hlen lane (by simp))
      (hinj lane (by simp))
    obtain ⟨rest', hrest', hlenr, hci, hc2r, hc3r⟩ := ih
      (fun l hl => hrange l (by simp [hl])) (fun l hl => hlen l (by simp [hl]))
      (fun l hl => hinj l (by simp [hl]))
    refine ⟨l' :: rest', ?_, ?_, ?_, ?_, ?_⟩
    · simp only [MoveForward.apply, hl', hrest']
    · simp [hlenr]
    · intro i hi
      cases i with
      | zero => simpa using hlen1
      | succ i =>
        simp only [List.getD_cons_succ]
        exact hci i (by simpa using hi)
    · intro i j hi hj hocc
      cases i with
      | zero =>
        simp only [gridGet, List.getD_cons_zero] at hocc ⊢
        exact hc2 j (by simpa using hj) hocc
      | succ i =>
        simp only [gridGet, List.getD_cons_succ] at hocc ⊢
        exact hc2r i j (by simpa using hi) (by simpa using hj) hocc
    · intro i t hi ht hnd
      cases i with
      | zero =>
        simp only [gridGet, List.getD_cons_zero] at hnd ⊢
        exact hc3 t (by simpa using ht) hnd
      | succ i =>
        simp only [gridGet, List.getD_cons_succ] at hnd ⊢
        exact hc3r i t (by simpa using hi) (by simpa using ht) hnd

/-- Witness for the amended C7: the spec's own example — length 10, one car at
index 9 with velocity 3, which lands at `(9 + 3) % 10 = 2`. -/
theorem claim7_move_forward_placement_witness :
    ∃ g', MoveForward.apply [[-1, -1, -1, -1, -1, -1, -1, -1, -1, 3]] = .ok g' ∧
      g'.length = ([[-1, -1, -1, -1, -1, -1, -1, -1, -1, 3]] : Grid).length ∧
      (∀ i, i < ([[-1, -1, -1, -1, -1, -1, -1, -1, -1, 3]] : Grid).length →
        (g'.getD i []).length =
          (([[-1, -1, -1, -1, -1, -1, -1, -1, -1, 3]] : Grid).getD i []).length) ∧
      (∀ i j, i < ([[-1, -1, -1, -1, -1, -1, -1, -1, -1, 3]] : Grid).length →
        j < (([[-1, -1, -1, -1, -1, -1, -1, -1, -1, 3]] : Grid).getD i []).length →
        0 ≤ gridGet [[-1, -1, -1, -1, -1, -1, -1, -1, -1, 3]] i j →
        gridGet g' i
            (destIdx (([[-1, -1, -1, -1, -1, -1, -1, -1, -1, 3]] : Grid).getD i []) j) =
          gridGet [[-1, -1, -1, -1, -1, -1, -1, -1, -1, 3]] i j) ∧
      (∀ i t, i < ([[-1, -1, -1, -1, -1, -1, -1, -1, -1, 3]] : Grid).length →
        t < (([[-1, -1, -1, -1, -1, -1, -1, -1, -1, 3]] : Grid).getD i []).length →
        (∀ j, j < (([[-1, -1, -1, -1, -1, -1, -1, -1, -1, 3]] : Grid).getD i []).length →
          0 ≤ gridGet [[-1, -1, -1, -1, -1, -1, -1, -1, -1, 3]] i j →
          destIdx (([[-1, -1, -1, -1, -1, -1, -1, -1, -1, 3]] : Grid).getD i []) j ≠ t) →
        gridGet g' i t = -1) :=
  claim7_move_forward_placement [[-1, -1, -1, -1, -1, -1, -1, -1, -1, 3]] 3
    (by decide) (by decide)
    (by
      intro lane hl j1 j2 h1 h2 o1 o2 hd
      rw [List.mem_singleton] at hl
      subst hl
      simp only [List.length_cons, List.length_nil] at h1 h2
      interval_cases j1 <;> interval_cases j2 <;> revert o1 o2 hd <;> decide)

/-! ## Single-lane collision clamp (claim C6) -/

/-- Per-cell outcome of `BreakOrTakeOver` on a single lane, computed from the
original lane: a moving car clamps to the gap when its forward window holds a
car; everything else is untouched. -/
def BreakOrTakeOver.clampCell (lane : Lane) (j : Nat) : Int :=
  if 0 < laneGet lane j then
    if (BreakOrTakeOver.check_following_vehicles lane j (laneGet lane j).toNat).any id then
      BreakOrTakeOver.get_gap
        (BreakOrTakeOver.check_following_vehicles lane j (laneGet lane j).toNat)
    else laneGet lane j
  else laneGet lane j

/-- The lane after the single-lane loop has processed the first `m` cells. -/
def partialClamp (lane : Lane) (m : Nat) : Lane :=
  (List.range lane.length).map
    (fun j => if j < m then BreakOrTakeOver.clampCell lane j else laneGet lane j)

lemma laneGet_out (lane : Lane) (j : Nat) (h : lane.length ≤ j) : laneGet lane j = -1 :=
  List.getD_eq_default _ _ h

lemma clampCell_occ (lane : Lane) (j : Nat) :
    0 ≤ BreakOrTakeOver.clampCell lane j ↔ 0 ≤ laneGet lane j := by
  unfold BreakOrTakeOver.clampCell
  split_ifs with h1 h2
  · unfold BreakOrTakeOver.get_gap
    constructor
    · intro _; exact le_of_lt h1
    · intro _; exact Int.natCast_nonneg _
  · exact Iff.rfl
  · exact Iff.rfl

lemma length_partialClamp (lane : Lane) (m : Nat) :
    (partialClamp lane m).length = lane.length := by
  unfold partialClamp
  simp

lemma laneGet_partialClamp (lane : Lane) (m j : Nat) :
    laneGet (partialClamp lane m) j =
      if j < lane.length then
        (if j < m then BreakOrTakeOver.clampCell lane j else laneGet lane j)
      else -1 := by
  rcases Nat.lt_or_ge j lane.length with h | h
  · rw [if_pos h]
    have hlen : j < (partialClamp lane m).length := by
      rw [length_partialClamp]; exact h
    rw [show laneGet (partialClamp lane m) j = (partialClamp lane m)[j] from
      List.getD_eq_getElem _ _ hlen]
    unfold partialClamp
    simp only [List.getElem_map, List.getElem_range]
  · rw [if_neg (not_lt.mpr h)]
    exact laneGet_out _ _ (by rw [length_partialClamp]; exact h)

lemma partialClamp_occ (lane : Lane) (m j : Nat) :
    0 ≤ laneGet (partialClamp lane m) j ↔ 0 ≤ laneGet lane j := by
  rw [laneGet_partialClamp]
  rcases Nat.lt_or_ge j lane.length with h | h
  · rw [if_pos h]
    rcases Nat.lt_or_ge j m with h2 | h2
    · rw [if_pos h2]; exact clampCell_occ lane j
    · rw [if_neg (not_lt.mpr h2)]
  · rw [if_neg (not_lt.mpr h), laneGet_out lane j h]

lemma check_partialClamp (lane : Lane) (m idx s : Nat) :
    BreakOrTakeOver.check_following_vehicles (partialClamp lane m) idx s =
      BreakOrTakeOver.check_following_vehicles lane idx s := by
  unfold BreakOrTakeOver.check_following_vehicles
  simp only [length_partialClamp]
  apply List.map_congr_left
  intro k _
  exact decide_eq_decide.mpr (partialClamp_occ lane m ((idx + 1 + k) % lane.length))

lemma partialClamp_zero (lane : Lane) : partialClamp lane 0 = lane := by
  apply List.ext_getElem (by simpa using length_partialClamp lane 0)
  intro i h1 h2
  unfold partialClamp
  simp only [List.getElem_map, List.getElem_range, Nat.not_lt_zero, if_false]
  unfold laneGet
  rw [List.getD_eq_getElem _ _ (by simpa using h2)]

lemma partialClamp_set (lane : Lane) (m : Nat) (hm : m < lane.length) :
    (partialClamp lane m).set m (BreakOrTakeOver.clampCell lane m) =
      partialClamp lane (m + 1) := by
  apply List.ext_getElem (by simp [length_partialClamp])
  intro i h1 h2
  rcases eq_or_ne i m with rfl | hne
  · rw [List.getElem_set_self]
    · unfold partialClamp
      simp
  · rw [List.getElem_set_ne (by omega)]
    unfold partialClamp
    simp only [List.getElem_map, List.getElem_range]
    have : i < m ↔ i < m + 1 := by omega
    rcases Nat.lt_or_ge i m with h | h
    · rw [if_pos h, if_pos (by omega)]
    · rw [if_neg (not_lt.mpr h), if_neg (by omega)]

lemma partialClamp_succ_of_unchanged (lane : Lane) (m : Nat)
    (h : BreakOrTakeOver.clampCell lane m = laneGet lane m) :
    partialClamp lane (m + 1) = partialClamp lane m := by
  apply List.ext_getElem (by simp [length_partialClamp])
  intro i h1 h2
  unfold partialClamp
  simp only [List.getElem_map, List.getElem_range]
  rcases eq_or_ne i m with rfl | hne
  · rw [if_pos (by omega), if_neg (by omega), h]
  · rcases Nat.lt_or_ge i m with hlt | hge
    · rw [if_pos (by omega), if_pos hlt]
    · rw [if_neg (by omega), if_neg (not_lt.mpr hge)]

lemma laneStep_partial (lane : Lane) (m : Nat) (hm : m < lane.length) :
    BreakOrTakeOver.laneStep 1 0 ([partialClamp lane m], []) m =
      ([partialClamp lane (m + 1)], []) := by
  have hp0 : (([partialClamp lane m] : Grid).getD 0 []) = partialClamp lane m := rfl
  have hsp : laneGet (partialClamp lane m) m = laneGet lane m := by
    rw [laneGet_partialClamp, if_pos hm, if_neg (lt_irrefl m)]
  simp only [BreakOrTakeOver.laneStep, List.not_mem_nil, if_false, hp0, hsp,
    check_partialClamp]
  by_cases hv : 0 < laneGet lane m
  · rw [if_pos hv]
    by_cases ha : (BreakOrTakeOver.check_following_vehicles lane m
        (laneGet lane m).toNat).any id
    · rw [if_pos ha, if_neg (by omega : ¬(0 + 1 < 1))]
      have hclamp : BreakOrTakeOver.clampCell lane m =
          BreakOrTakeOver.get_gap (BreakOrTakeOver.check_following_vehicles lane m
            (laneGet lane m).toNat) := by
        unfold BreakOrTakeOver.clampCell
        rw [if_pos hv, if_pos ha]
      have hset : gridSet [partialClamp lane m] 0 m
          (BreakOrTakeOver.get_gap (BreakOrTakeOver.check_following_vehicles lane m
            (laneGet lane m).toNat)) = [partialClamp lane (m + 1)] := by
        unfold gridSet
        rw [hp0, ← hclamp, partialClamp_set lane m hm]
        rfl
      rw [hset]
    · rw [if_neg ha]
      have : BreakOrTakeOver.clampCell lane m = laneGet lane m := by
        unfold BreakOrTakeOver.clampCell
        rw [if_pos hv, if_neg ha]
      rw [partialClamp_succ_of_unchanged lane m this]
  · rw [if_neg hv]
    have : BreakOrTakeOver.clampCell lane m = laneGet lane m := by
      unfold BreakOrTakeOver.clampCell
      rw [if_neg hv]
    rw [partialClamp_succ_of_unchanged lane m this]

lemma foldl_laneStep_partial (lane : Lane) :
    ∀ m, m ≤ lane.length →
    (List.range m).foldl (BreakOrTakeOver.laneStep 1 0) ([lane], []) =
      ([partialClamp lane m], []) := by
  intro m
  induction m with
  | zero =>
    intro _
    rw [List.range_zero, List.foldl_nil, partialClamp_zero]
  | succ m ih =>
    intro h
    rw [List.range_succ, List.foldl_append, ih (by omega), List.foldl_cons, List.foldl_nil,
      laneStep_partial lane m (by omega)]

/-- On a single lane, `BreakOrTakeOver.apply` is exactly the per-cell clamp
map: every moving car's outcome depends only on the original occupancy
pattern, which the braking writes never change. -/
lemma breakOrTakeOver_single_lane (lane : Lane) :
    BreakOrTakeOver.apply [lane] = [partialClamp lane lane.length] := by
  unfold BreakOrTakeOver.apply
  rw [show ([lane] : Grid).length = 1 from rfl, show List.range 1 = [0] from rfl,
    List.foldl_cons,
    List.foldl_nil, show (([lane] : Grid).getD 0 []) = lane from rfl,
    foldl_laneStep_partial lane lane.length (le_refl _)]

lemma findIdx_range_map :
    ∀ (m : Nat) (f : Nat → Bool) (k : Nat), k < m → f k = true →
      (∀ i, i < k → f i = false) → ((List.range m).map f).findIdx id = k := by
  intro m
  induction m with
  | zero => intro f k hk; omega
  | succ m ih =>
    intro f k hk ht hmin
    rw [List.range_succ_eq_map, List.map_cons, List.map_map]
    cases k with
    | zero =>
      rw [List.findIdx_cons]
      simp [ht]
    | succ k0 =>
      rw [List.findIdx_cons]
      have h0 : f 0 = false := hmin 0 (Nat.succ_pos k0)
      simp only [h0, id, cond_false]
      rw [ih (f ∘ Nat.succ) k0 (by omega) ht (fun i hi => hmin (i + 1) (by omega))]

lemma any_range_map_true (f : Nat → Bool) (m k : Nat) (hk : k < m) (h : f k = true) :
    ((List.range m).map f).any id = true := by
  rw [List.any_eq_true]
  exact ⟨f k, List.mem_map.mpr ⟨k, List.mem_range.mpr hk, rfl⟩, h⟩

lemma any_range_map_false (f : Nat → Bool) (m : Nat) (h : ∀ k, k < m → f k = false) :
    ((List.range m).map f).any id = false := by
  rw [List.any_eq_false]
  intro x hx
  obtain ⟨k, hk, rfl⟩ := List.mem_map.mp hx
  simp [h k (List.mem_range.mp hk)]

/-- Claim C6: on a single-lane grid, `BreakOrTakeOver.apply` degenerates to
the pure collision-avoidance clamp: an occupied cell `j` with velocity
`v > 0` whose nearest occupied cell ahead (toroidally) sits at distance
`d ≤ v` ends with velocity `d - 1`; an occupied cell whose whole forward
window (of `min v length` cells) is empty is left unchanged. -/
theorem claim6_single_lane_clamp (lane : Lane) (j : Nat)
    (hj : j < lane.length) (hv : 0 < laneGet lane j) :
    (∀ d : Nat, 1 ≤ d → (d : Int) ≤ laneGet lane j →
      0 ≤ laneGet lane ((j + d) % lane.length) →
      (∀ e : Nat, 1 ≤ e → e < d → laneGet lane ((j + e) % lane.length) < 0) →
      laneGet ((BreakOrTakeOver.apply [lane]).getD 0 []) j = (d : Int) - 1) ∧
    ((∀ k : Nat, 1 ≤ k → k ≤ min (laneGet lane j).toNat lane.length →
      laneGet lane ((j + k) % lane.length) < 0) →
      laneGet ((BreakOrTakeOver.apply [lane]).getD 0 []) j = laneGet lane j) := by
  have happ : laneGet ((BreakOrTakeOver.apply [lane]).getD 0 []) j =
      BreakOrTakeOver.clampCell lane j := by
    rw [breakOrTakeOver_single_lane,
      show (([partialClamp lane lane.length] : Grid).getD 0 []) =
        partialClamp lane lane.length from rfl,
      laneGet_partialClamp, if_pos hj, if_pos hj]
  have hwin : BreakOrTakeOver.check_following_vehicles lane j (laneGet lane j).toNat =
      (List.range (min (laneGet lane j).toNat lane.length)).map
        (fun k => decide (0 ≤ laneGet lane ((j + 1 + k) % lane.length))) := rfl
  constructor
  · intro d hd1 hdv hocc hmin
    have hn1 : 1 ≤ lane.length := by omega
    have hdn : d ≤ lane.length := by
      by_contra hc
      push_neg at hc
      have h := hmin lane.length hn1 hc
      rw [Nat.add_mod_right, Nat.mod_eq_of_lt hj] at h
      omega
    have hdvt : d ≤ (laneGet lane j).toNat := by omega
    have hdlt : d - 1 < min (laneGet lane j).toNat lane.length := by omega
    have hfd : (fun k => decide (0 ≤ laneGet lane ((j + 1 + k) % lane.length))) (d - 1) =
        true := by
      show decide (0 ≤ laneGet lane ((j + 1 + (d - 1)) % lane.length)) = true
      rw [show j + 1 + (d - 1) = j + d by omega]
      exact decide_eq_true hocc
    have hfi : ∀ i, i < d - 1 →
        (fun k => decide (0 ≤ laneGet lane ((j + 1 + k) % lane.length))) i = false := by
      intro i hi
      show decide (0 ≤ laneGet lane ((j + 1 + i) % lane.length)) = false
      rw [show j + 1 + i = j + (i + 1) by omega]
      exact decide_eq_false (not_le.mpr (hmin (i + 1) (by omega) (by omega)))
    have hany : (BreakOrTakeOver.check_following_vehicles lane j
        (laneGet lane j).toNat).any id = true := by
      rw [hwin]
      exact any_range_map_true _ _ (d - 1) hdlt hfd
    have hidx : (BreakOrTakeOver.check_following_vehicles lane j
        (laneGet lane j).toNat).findIdx id = d - 1 := by
      rw [hwin]
      exact findIdx_range_map _ _ (d - 1) hdlt hfd hfi
    rw [happ]
    unfold BreakOrTakeOver.clampCell
    rw [if_pos hv, if_pos hany]
    unfold BreakOrTakeOver.get_gap
    rw [hidx]
    push_cast [Nat.cast_sub hd1]
    ring
  · intro hclear
    have hfalse : ∀ k, k < min (laneGet lane j).toNat lane.length →
        (fun k => decide (0 ≤ laneGet lane ((j + 1 + k) % lane.length))) k = false := by
      intro k hk
      show decide (0 ≤ laneGet lane ((j + 1 + k) % lane.length)) = false
      rw [show j + 1 + k = j + (k + 1) by omega]
      exact decide_eq_false (not_le.mpr (hclear (k + 1) (by omega) (by omega)))
    have hany0 : (BreakOrTakeOver.check_following_vehicles lane j
        (laneGet lane j).toNat).any id = false := by
      rw [hwin]
      exact any_range_map_false _ _ hfalse
    rw [happ]
    unfold BreakOrTakeOver.clampCell
    rw [if_pos hv, hany0]
    simp

/-- Witness for C6: the spec's example — a single lane `[5, -1, -1, 2]`; the
car of velocity 5 at cell 0 sees the car at distance 3 and is clamped to 2. -/
theorem claim6_single_lane_clamp_witness :
    laneGet ((BreakOrTakeOver.apply [[5, -1, -1, 2]]).getD 0 []) 0 = (3 : Int) - 1 :=
  (claim6_single_lane_clamp [5, -1, -1, 2] 0 (by decide) (by decide)).1 3
    (by decide) (by decide) (by decide)
    (by intro e h1 h2; interval_cases e <;> decide)
